import Mathlib

/-!
Verification of the Workload Aggregation & Assignment Engine of `gg`.

The definitions below are a shallow embedding of the Go sources:
  * `internal/core/domain` — the data model,
  * `internal/core/app/app.go` — classifier, suggester, enricher, working-day
    subtraction,
  * the in-memory user cache (`cache` package).

Conventions of the embedding:
  * Go `int` identifiers and timestamps become `Int`; counters that only ever
    hold non-negative counts (`Commits`, `MRCount`) become `Nat`.
  * Go `float64` scores become `ℚ` (exact arithmetic; `float64` rounding is
    monotone, so all comparisons agree for realistic count magnitudes).
  * `time.Time` becomes `Int` seconds since the Unix epoch (UTC civil time);
    `AddDate(0,0,-1)` is subtraction of 86400 and `t.Weekday()` is
    `(t / 86400 + 4) mod 7` (day 0, 1970-01-01, was a Thursday; Sunday = 0).
  * nil-able pointers become `Option`, slices become `List`, `error` results
    become an explicit error component.
  * `sort.Slice` is external library code; it is modelled by its documented
    contract (`SortedAs`): the output is a permutation of the input in which
    no element is `less` than an element placed before it.  Functions calling
    it are parameterised by the sorting function, and theorems assume only
    that contract.  (`sort.Slice` makes no stability promise.)
-/

/- The batteries library seals the rational-number operations; reopen them so
that concrete score computations can be settled by `decide`. -/
attribute [local semireducible] Rat.add Rat.mul Rat.inv

/-! ## Data model (internal/core/domain) -/

structure UserStatus where
  message : String
  availability : String
deriving DecidableEq, Repr

structure User where
  id : Int
  username : String
  email : String
  status : UserStatus
deriving DecidableEq, Repr

structure Project where
  id : Int
  path : String
deriving DecidableEq, Repr

structure MergeRequest where
  id : Int
  iid : Int
  title : String
  description : String
  webURL : String
  author : Option User
  assignee : Option User
  reviewers : List User
  createdAt : Int
  updatedAt : Int
  projectID : Int
  draft : Bool
  sourceBranch : String
deriving DecidableEq, Repr

structure MergeRequestWithStatus where
  mr : MergeRequest
  approvals : List User
  approvalCount : Nat
  isStalled : Bool
  isCurrentBranch : Bool
  isCurrentProject : Bool
deriving DecidableEq, Repr

structure UserWorkload where
  user : User
  mrCount : Nat
  commits : Nat
  activeMRs : List MergeRequest
deriving DecidableEq, Repr

/-! ## Involvement & approval classifier (app.go) -/

/-- Embedding of `isUserInvolvedInMR` (app.go 648-669).  The Go argument is a
possibly-nil pointer, hence the `Option`. -/
def isUserInvolvedInMR : Option MergeRequest → Int → Bool
  | none, _ => false
  | some mr, userID =>
    if mr.draft then false
    else if (match mr.author with
             | some a => a.id == userID
             | none => false) then false
    else
      let isAssignee := match mr.assignee with
        | some a => a.id == userID
        | none => false
      let isReviewer := mr.reviewers.any (fun r => r.id == userID)
      isAssignee || isReviewer

/-- Embedding of `hasUserApprovedMR` (app.go 697-705). -/
def hasUserApprovedMR (approvals : List User) (userID : Int) : Bool :=
  approvals.any (fun a => a.id == userID)

/-- Prefix test on character lists (helper for `goStringContains`). -/
def charsPrefixOf : List Char → List Char → Bool
  | [], _ => true
  | _ :: _, [] => false
  | a :: as, b :: bs => a == b && charsPrefixOf as bs

/-- Infix test on character lists (helper for `goStringContains`). -/
def charsContain (s sub : List Char) : Bool :=
  charsPrefixOf sub s ||
    (match s with
     | [] => false
     | _ :: rest => charsContain rest sub)

/-- Embedding of Go `strings.Contains`: `sub` occurs contiguously in `s`. -/
def goStringContains (s sub : String) : Bool :=
  charsContain s.toList sub.toList

/-- Embedding of Go `strings.ToLower` (character-wise lowering; the statuses
involved are ASCII). -/
def goToLower (s : String) : String :=
  String.mk (s.data.map Char.toLower)

/-- Embedding of `isUserAvailable` (app.go 707-714). -/
def isUserAvailable (user : User) : Bool :=
  let status := goToLower user.status.message
  let availability := goToLower user.status.availability
  !(goStringContains status "ooo") &&
    !(goStringContains status "vacation") &&
    availability != "busy"

/-- Embedding of `calculateAssigneeScore` (app.go 599-601); `float64`
division is modelled exactly over `ℚ`. -/
def calculateAssigneeScore (commits mrCount : Nat) : ℚ :=
  (commits : ℚ) / (1 + (mrCount : ℚ))

/-! ## `sort.Slice` contract and reference sorters

`sort.Slice` (Go standard library) is modelled by its documented contract:
it rearranges the slice into a permutation that is sorted with respect to
the provided `less` function.  It is documented as **not** guaranteed to be
stable. -/

/-- The type of an in-place slice sort as a function: it receives the `less`
comparator and the slice contents. -/
def GoSort (α : Type) : Type := (α → α → Bool) → List α → List α

/-- The documented postcondition of `sort.Slice less` on an input slice:
the output is a permutation of the input and no element of the output is
`less` than an element placed before it. -/
def SortedAs {α : Type} (less : α → α → Bool) (input output : List α) : Prop :=
  List.Perm output input ∧ output.Pairwise (fun x y => less y x = false)

instance {α : Type} [DecidableEq α] (less : α → α → Bool) (input output : List α) :
    Decidable (SortedAs less input output) :=
  inferInstanceAs (Decidable (List.Perm output input ∧ _))

/-- Insertion step placing an element before any element it ties with
(helper for `insertionSortEarly`). -/
def orderedInsertEarly {α : Type} (less : α → α → Bool) (a : α) : List α → List α
  | [] => [a]
  | b :: l => if less b a then b :: orderedInsertEarly less a l else a :: b :: l

/-- A stable reference sorter satisfying the `sort.Slice` contract: ties keep
their input order. -/
def insertionSortEarly {α : Type} (less : α → α → Bool) : List α → List α
  | [] => []
  | a :: l => orderedInsertEarly less a (insertionSortEarly less l)

/-- Insertion step placing an element after any element it ties with
(helper for `insertionSortLate`). -/
def orderedInsertLate {α : Type} (less : α → α → Bool) (a : α) : List α → List α
  | [] => [a]
  | b :: l => if less a b then a :: b :: l else b :: orderedInsertLate less a l

/-- An anti-stable reference sorter also satisfying the `sort.Slice`
contract: ties are reversed relative to the input order. -/
def insertionSortLate {α : Type} (less : α → α → Bool) : List α → List α
  | [] => []
  | a :: l => orderedInsertLate less a (insertionSortLate less l)

/-! ## Assignment suggester (app.go 201-253) -/

/-- The Go result triple `(*domain.User, *domain.User, error)` of
`SuggestAssigneeAndReviewer`. -/
structure SuggestOutcome where
  assignee : Option User
  reviewer : Option User
  err : Option String
deriving DecidableEq, Repr

/-- The first comparator of `SuggestAssigneeAndReviewer` (app.go 222-227):
descending assignee score. -/
def lessByScore (i j : UserWorkload) : Bool :=
  decide (calculateAssigneeScore j.commits j.mrCount <
    calculateAssigneeScore i.commits i.mrCount)

/-- The second comparator of `SuggestAssigneeAndReviewer` (app.go 238-240):
ascending unresolved-MR count. -/
def lessByMRCount (i j : UserWorkload) : Bool :=
  decide (i.mrCount < j.mrCount)

/-- Embedding of `SuggestAssigneeAndReviewer` (app.go 202-253),
parameterised by the sorting function standing for `sort.Slice`. -/
def suggestAssigneeAndReviewer (sorter : GoSort UserWorkload)
    (mr : MergeRequest) (workloads : List UserWorkload) : SuggestOutcome :=
  if workloads.length == 0 then
    { assignee := none, reviewer := none, err := some "no team members available" }
  else
    let availableWorkloads := workloads.filter (fun w => isUserAvailable w.user)
    if availableWorkloads.length == 0 then
      { assignee := none, reviewer := none, err := some "no available team members" }
    else
      let sortedByScore := sorter lessByScore availableWorkloads
      let suggestedAssignee :=
        (sortedByScore.find? (fun w =>
          match mr.author with
          | none => true
          | some au => w.user.id != au.id)).map (fun w => w.user)
      let sortedByMRCount := sorter lessByMRCount sortedByScore
      let suggestedReviewer :=
        (sortedByMRCount.find? (fun w =>
          (match mr.author with
           | none => true
           | some au => w.user.id != au.id) &&
          (match suggestedAssignee with
           | none => true
           | some a => w.user.id != a.id))).map (fun w => w.user)
      { assignee := suggestedAssignee, reviewer := suggestedReviewer, err := none }

/-- C5: `isInvolved` is false for a nil merge request, false for drafts
regardless of assignee/reviewer membership, false for the author even if the
author is also assignee or reviewer, true for the assignee or any listed
reviewer, and false otherwise. -/
theorem isUserInvolvedInMR_characterisation (mr? : Option MergeRequest) (userID : Int) :
    (mr? = none → isUserInvolvedInMR mr? userID = false) ∧
    (∀ mr, mr? = some mr → mr.draft = true → isUserInvolvedInMR mr? userID = false) ∧
    (∀ mr au, mr? = some mr → mr.author = some au → au.id = userID →
      isUserInvolvedInMR mr? userID = false) ∧
    (∀ mr, mr? = some mr → mr.draft = false →
      (∀ au, mr.author = some au → au.id ≠ userID) →
      ((∃ a, mr.assignee = some a ∧ a.id = userID) ∨ (∃ r ∈ mr.reviewers, r.id = userID)) →
      isUserInvolvedInMR mr? userID = true) ∧
    (∀ mr, mr? = some mr →
      (∀ a, mr.assignee = some a → a.id ≠ userID) →
      (∀ r ∈ mr.reviewers, r.id ≠ userID) →
      isUserInvolvedInMR mr? userID = false) := by
  refine ⟨?_, ?_, ?_, ?_, ?_⟩
  · rintro rfl; rfl
  · rintro mr rfl hdraft
    simp [isUserInvolvedInMR, hdraft]
  · rintro mr au rfl hau hid
    simp only [isUserInvolvedInMR, hau, hid]
    simp
  · rintro mr rfl hdraft hau hmem
    simp only [isUserInvolvedInMR, hdraft]
    have hauthor : (match mr.author with
        | some a => a.id == userID
        | none => false) = false := by
      cases h : mr.author with
      | none => rfl
      | some a => simpa using hau a h
    simp only [hauthor, if_false, Bool.if_false_left]
    rcases hmem with ⟨a, ha, haid⟩ | ⟨r, hr, hrid⟩
    · simp [ha, haid]
    · refine Bool.or_eq_true_iff.mpr (Or.inr ?_)
      exact List.any_eq_true.mpr ⟨r, hr, by simp [hrid]⟩
  · rintro mr rfl hass hrev
    simp only [isUserInvolvedInMR]
    by_cases hdraft : mr.draft
    · simp [hdraft]
    · simp only [hdraft, if_false]
      have hassignee : (match mr.assignee with
          | some a => a.id == userID
          | none => false) = false := by
        cases h : mr.assignee with
        | none => rfl
        | some a => simpa using hass a h
      have hreviewer : mr.reviewers.any (fun r => r.id == userID) = false := by
        refine List.any_eq_false.mpr ?_
        intro r hr
        simpa using hrev r hr
      split
      · rfl
      · simp [hassignee, hreviewer]

/-- Witness for C5 at concrete inputs: a non-draft merge request authored by
user 1 with assignee 2 and reviewer 3, probed for users 2 (involved) and
1 (author, not involved). -/
theorem isUserInvolvedInMR_characterisation_witness :
    isUserInvolvedInMR
      (some { id := 10, iid := 1, title := "t", description := "", webURL := "",
              author := some { id := 1, username := "a", email := "", status := ⟨"", ""⟩ },
              assignee := some { id := 2, username := "b", email := "", status := ⟨"", ""⟩ },
              reviewers := [{ id := 3, username := "c", email := "", status := ⟨"", ""⟩ }],
              createdAt := 0, updatedAt := 0, projectID := 7, draft := false,
              sourceBranch := "f" }) 2 = true ∧
    isUserInvolvedInMR
      (some { id := 10, iid := 1, title := "t", description := "", webURL := "",
              author := some { id := 1, username := "a", email := "", status := ⟨"", ""⟩ },
              assignee := some { id := 1, username := "a", email := "", status := ⟨"", ""⟩ },
              reviewers := [], createdAt := 0, updatedAt := 0, projectID := 7,
              draft := false, sourceBranch := "f" }) 1 = false := by
  constructor
  · exact (isUserInvolvedInMR_characterisation _ 2).2.2.2.1 _ rfl rfl
      (by intro au h; cases h; decide)
      (Or.inl ⟨_, rfl, rfl⟩)
  · exact (isUserInvolvedInMR_characterisation _ 1).2.2.1 _ _ rfl rfl rfl

/-- C6: the suggester fails, as an ordinary error value, in exactly the two
business-rule cases: an empty workload list yields the "no team members
available" error (whose message begins with "no team members") and a
non-empty list with no available member yields "no available team members";
in both cases neither an assignee nor a reviewer is returned, and whenever
some member is available no error is returned. -/
theorem suggestAssigneeAndReviewer_policy_errors
    (sorter : GoSort UserWorkload) (mr : MergeRequest) :
    (suggestAssigneeAndReviewer sorter mr [] =
      { assignee := none, reviewer := none, err := some "no team members available" } ∧
      charsPrefixOf "no team members".toList "no team members available".toList = true) ∧
    (∀ workloads : List UserWorkload, workloads ≠ [] →
      workloads.filter (fun w => isUserAvailable w.user) = [] →
      suggestAssigneeAndReviewer sorter mr workloads =
        { assignee := none, reviewer := none, err := some "no available team members" }) ∧
    (∀ workloads : List UserWorkload,
      workloads.filter (fun w => isUserAvailable w.user) ≠ [] →
      (suggestAssigneeAndReviewer sorter mr workloads).err = none) := by
  refine ⟨⟨rfl, by decide⟩, ?_, ?_⟩
  · intro workloads hne hfilter
    obtain ⟨a, t, rfl⟩ := List.exists_cons_of_ne_nil hne
    simp [suggestAssigneeAndReviewer, hfilter]
  · intro workloads hfilter
    have hne : workloads ≠ [] := by
      intro h
      subst h
      simp at hfilter
    obtain ⟨a, t, rfl⟩ := List.exists_cons_of_ne_nil hne
    have hlen : ((a :: t).filter (fun w => isUserAvailable w.user)).length ≠ 0 := by
      simpa [List.length_eq_zero] using hfilter
    simp [suggestAssigneeAndReviewer, hlen]

/-- Witness for C6: the two error cases at concrete inputs (an empty list,
and a singleton whose member is busy), and a non-error case with one
available member. -/
theorem suggestAssigneeAndReviewer_policy_errors_witness :
    (suggestAssigneeAndReviewer insertionSortEarly
      { id := 1, iid := 1, title := "", description := "", webURL := "",
        author := none, assignee := none, reviewers := [], createdAt := 0,
        updatedAt := 0, projectID := 1, draft := false, sourceBranch := "b" } [] =
      { assignee := none, reviewer := none, err := some "no team members available" }) ∧
    (suggestAssigneeAndReviewer insertionSortEarly
      { id := 1, iid := 1, title := "", description := "", webURL := "",
        author := none, assignee := none, reviewers := [], createdAt := 0,
        updatedAt := 0, projectID := 1, draft := false, sourceBranch := "b" }
      [{ user := { id := 2, username := "u", email := "", status := ⟨"", "busy"⟩ },
         mrCount := 0, commits := 0, activeMRs := [] }] =
      { assignee := none, reviewer := none, err := some "no available team members" }) ∧
    ((suggestAssigneeAndReviewer insertionSortEarly
      { id := 1, iid := 1, title := "", description := "", webURL := "",
        author := none, assignee := none, reviewers := [], createdAt := 0,
        updatedAt := 0, projectID := 1, draft := false, sourceBranch := "b" }
      [{ user := { id := 2, username := "u", email := "", status := ⟨"", ""⟩ },
         mrCount := 0, commits := 0, activeMRs := [] }]).err = none) := by
  refine ⟨?_, ?_, ?_⟩
  · exact (suggestAssigneeAndReviewer_policy_errors insertionSortEarly _).1.1
  · exact (suggestAssigneeAndReviewer_policy_errors insertionSortEarly _).2.1 _
      (by decide) (by decide)
  · exact (suggestAssigneeAndReviewer_policy_errors insertionSortEarly _).2.2 _
      (by decide)

/-! ## Helper lemmas about `List.find?` -/

/-- A successful `find?` splits the list into a failing prefix, the found
element, and a suffix. -/
theorem find?_split {α : Type} {p : α → Bool} {l : List α} {a : α}
    (h : l.find? p = some a) :
    ∃ l1 l2, l = l1 ++ a :: l2 ∧ (∀ x ∈ l1, p x = false) ∧ p a = true := by
  induction l with
  | nil => simp [List.find?] at h
  | cons b t ih =>
    by_cases hb : p b
    · rw [List.find?_cons_of_pos _ hb] at h
      obtain rfl : b = a := by simpa using h
      exact ⟨[], t, rfl, by simp, hb⟩
    · rw [List.find?_cons_of_neg _ hb] at h
      obtain ⟨l1, l2, rfl, h1, h2⟩ := ih h
      exact ⟨b :: l1, l2, rfl, by
        intro x hx
        rcases List.mem_cons.mp hx with rfl | hx
        · exact Bool.eq_false_iff.mpr hb
        · exact h1 x hx, h2⟩

/-- C10: when the merge request has an author and every available member is
that author, the suggester returns a nil assignee and a nil reviewer with a
nil error, for any sorting function satisfying the `sort.Slice` contract. -/
theorem suggestAssigneeAndReviewer_nil_assignee_nil_error
    (sorter : GoSort UserWorkload) (mr : MergeRequest)
    (workloads : List UserWorkload) (au : User)
    (hau : mr.author = some au)
    (hne : workloads.filter (fun w => isUserAvailable w.user) ≠ [])
    (hall : ∀ w ∈ workloads.filter (fun w => isUserAvailable w.user), w.user.id = au.id)
    (h1 : SortedAs lessByScore (workloads.filter (fun w => isUserAvailable w.user))
      (sorter lessByScore (workloads.filter (fun w => isUserAvailable w.user))))
    (h2 : SortedAs lessByMRCount
      (sorter lessByScore (workloads.filter (fun w => isUserAvailable w.user)))
      (sorter lessByMRCount
        (sorter lessByScore (workloads.filter (fun w => isUserAvailable w.user))))) :
    suggestAssigneeAndReviewer sorter mr workloads =
      { assignee := none, reviewer := none, err := none } := by
  have hwne : workloads ≠ [] := by
    intro h
    subst h
    simp at hne
  obtain ⟨a, t, rfl⟩ := List.exists_cons_of_ne_nil hwne
  have hlen : (((a :: t).filter (fun w => isUserAvailable w.user)).length == 0) = false := by
    simpa [List.length_eq_zero] using hne
  have hfindA : (sorter lessByScore
      ((a :: t).filter (fun w => isUserAvailable w.user))).find?
      (fun w => w.user.id != au.id) = none := by
    rw [List.find?_eq_none]
    intro w hw
    have hwmem := h1.1.subset hw
    simp [hall w hwmem]
  have hfindR : (sorter lessByMRCount (sorter lessByScore
      ((a :: t).filter (fun w => isUserAvailable w.user)))).find?
      (fun w => w.user.id != au.id) = none := by
    rw [List.find?_eq_none]
    intro w hw
    have hwmem := h1.1.subset (h2.1.subset hw)
    simp [hall w hwmem]
  simp [suggestAssigneeAndReviewer, hau, hlen, hfindA, hfindR]

/-- Witness for C10: one available member whose ID (1) equals the author's;
the result is nil assignee, nil reviewer and nil error. -/
theorem suggestAssigneeAndReviewer_nil_assignee_nil_error_witness :
    suggestAssigneeAndReviewer insertionSortEarly
      { id := 9, iid := 2, title := "", description := "", webURL := "",
        author := some { id := 1, username := "a", email := "", status := ⟨"", ""⟩ },
        assignee := none, reviewers := [], createdAt := 0, updatedAt := 0,
        projectID := 4, draft := false, sourceBranch := "b" }
      [{ user := { id := 1, username := "a", email := "", status := ⟨"", ""⟩ },
         mrCount := 2, commits := 3, activeMRs := [] }] =
      { assignee := none, reviewer := none, err := none } := by
  exact suggestAssigneeAndReviewer_nil_assignee_nil_error insertionSortEarly _ _
    { id := 1, username := "a", email := "", status := ⟨"", ""⟩ }
    rfl (by decide) (by decide) (by decide) (by decide)

/-- Normal form of the suggester when at least one member is available: no
error, and assignee/reviewer are the first hits of the two `find?` scans
over the two sorted orders. -/
theorem suggestAssigneeAndReviewer_eq_of_avail_ne_nil
    (sorter : GoSort UserWorkload) (mr : MergeRequest) (workloads : List UserWorkload)
    (hne : workloads.filter (fun w => isUserAvailable w.user) ≠ []) :
    suggestAssigneeAndReviewer sorter mr workloads =
      { assignee := ((sorter lessByScore
            (workloads.filter (fun w => isUserAvailable w.user))).find?
            (fun w => match mr.author with
              | none => true
              | some au => w.user.id != au.id)).map (fun w => w.user),
        reviewer := ((sorter lessByMRCount (sorter lessByScore
            (workloads.filter (fun w => isUserAvailable w.user)))).find?
            (fun w =>
              (match mr.author with
               | none => true
               | some au => w.user.id != au.id) &&
              (match ((sorter lessByScore
                  (workloads.filter (fun w => isUserAvailable w.user))).find?
                  (fun w => match mr.author with
                    | none => true
                    | some au => w.user.id != au.id)).map (fun w => w.user) with
               | none => true
               | some a => w.user.id != a.id))).map (fun w => w.user),
        err := none } := by
  have hwne : workloads ≠ [] := by
    intro h
    subst h
    simp at hne
  obtain ⟨a, t, rfl⟩ := List.exists_cons_of_ne_nil hwne
  have hlen : ((((a :: t)).filter (fun w => isUserAvailable w.user)).length == 0) = false := by
    simpa [List.length_eq_zero] using hne
  simp [suggestAssigneeAndReviewer, hlen]

/-- In a sorted split `l = l1 ++ w :: l2`, no element of the suffix is
`less` than `w`. -/
theorem sorted_split_suffix {α : Type} {less : α → α → Bool} {l l1 l2 : List α} {w v : α}
    (hsp : l = l1 ++ w :: l2) (hpw : l.Pairwise (fun x y => less y x = false))
    (hv : v ∈ l2) : less v w = false := by
  subst hsp
  have h := (List.pairwise_append.mp hpw).2.1
  exact (List.pairwise_cons.mp h).1 v hv

/-- C1: with a non-empty available set, the suggester returns no error; the
assignee is the first member, in the descending-score order produced by the
sort, whose ID differs from the author's (any available member of maximal
score qualifies when the MR has no author, and every available member of
strictly larger score than the assignee is the author); the reviewer, when
present, is an available member distinct from both author and assignee such
that every available member with strictly fewer unresolved MRs is the author
or the assignee; a reviewer exists whenever some available member is neither
author nor assignee, and a missing reviewer is not an error. -/
theorem suggestAssigneeAndReviewer_order_characterisation
    (sorter : GoSort UserWorkload) (mr : MergeRequest) (workloads : List UserWorkload)
    (hne : workloads.filter (fun w => isUserAvailable w.user) ≠ [])
    (h1 : SortedAs lessByScore (workloads.filter (fun w => isUserAvailable w.user))
      (sorter lessByScore (workloads.filter (fun w => isUserAvailable w.user))))
    (h2 : SortedAs lessByMRCount
      (sorter lessByScore (workloads.filter (fun w => isUserAvailable w.user)))
      (sorter lessByMRCount (sorter lessByScore
        (workloads.filter (fun w => isUserAvailable w.user))))) :
    (suggestAssigneeAndReviewer sorter mr workloads).err = none ∧
    (mr.author = none →
      ∃ w ∈ workloads.filter (fun w => isUserAvailable w.user),
        (suggestAssigneeAndReviewer sorter mr workloads).assignee = some w.user ∧
        ∀ v ∈ workloads.filter (fun w => isUserAvailable w.user),
          calculateAssigneeScore v.commits v.mrCount ≤
            calculateAssigneeScore w.commits w.mrCount) ∧
    (∀ au, mr.author = some au →
      (∃ w ∈ workloads.filter (fun w => isUserAvailable w.user), w.user.id ≠ au.id) →
      ∃ w ∈ workloads.filter (fun w => isUserAvailable w.user),
        (suggestAssigneeAndReviewer sorter mr workloads).assignee = some w.user ∧
        w.user.id ≠ au.id ∧
        ∀ v ∈ workloads.filter (fun w => isUserAvailable w.user),
          calculateAssigneeScore w.commits w.mrCount <
            calculateAssigneeScore v.commits v.mrCount →
          v.user.id = au.id) ∧
    (∀ u, (suggestAssigneeAndReviewer sorter mr workloads).reviewer = some u →
      ∃ w ∈ workloads.filter (fun w => isUserAvailable w.user),
        u = w.user ∧
        (∀ au, mr.author = some au → u.id ≠ au.id) ∧
        (∀ a, (suggestAssigneeAndReviewer sorter mr workloads).assignee = some a →
          u.id ≠ a.id) ∧
        ∀ v ∈ workloads.filter (fun w => isUserAvailable w.user),
          v.mrCount < w.mrCount →
          (∃ au, mr.author = some au ∧ v.user.id = au.id) ∨
          (∃ a, (suggestAssigneeAndReviewer sorter mr workloads).assignee = some a ∧
            v.user.id = a.id)) ∧
    ((∃ w ∈ workloads.filter (fun w => isUserAvailable w.user),
        (∀ au, mr.author = some au → w.user.id ≠ au.id) ∧
        (∀ a, (suggestAssigneeAndReviewer sorter mr workloads).assignee = some a →
          w.user.id ≠ a.id)) →
      (suggestAssigneeAndReviewer sorter mr workloads).reviewer ≠ none) := by
  rw [suggestAssigneeAndReviewer_eq_of_avail_ne_nil sorter mr workloads hne]
  dsimp only
  refine ⟨rfl, ?_, ?_, ?_, ?_⟩
  · -- no author: the head of the score-sorted order is taken
    intro hau
    simp only [hau]
    have hs1ne : sorter lessByScore (workloads.filter (fun w => isUserAvailable w.user)) ≠ [] := by
      intro h
      exact hne (List.Perm.eq_nil (h ▸ h1.1).symm)
    obtain ⟨w, t, hwt⟩ := List.exists_cons_of_ne_nil hs1ne
    have hfind : (sorter lessByScore
        (workloads.filter (fun w => isUserAvailable w.user))).find?
        (fun _ => true) = some w := by
      rw [hwt]
      exact List.find?_cons_of_pos _ rfl
    refine ⟨w, ?_, by simp [hfind], ?_⟩
    · exact h1.1.subset (hwt ▸ List.mem_cons_self w t)
    · intro v hv
      have hvmem : v ∈ w :: t := hwt ▸ (h1.1.mem_iff.mpr hv)
      rcases List.mem_cons.mp hvmem with rfl | hvt
      · exact le_refl _
      · have hless : lessByScore v w = false := by
          have h := List.pairwise_cons.mp (hwt ▸ h1.2)
          exact h.1 v hvt
        have := of_decide_eq_false hless
        exact not_lt.mp this
  · -- author present and an available non-author exists
    intro au hau hex
    simp only [hau]
    have hfindsome : ((sorter lessByScore
        (workloads.filter (fun w => isUserAvailable w.user))).find?
        (fun w => w.user.id != au.id)).isSome = true := by
      rcases hex with ⟨w, hw, hwid⟩
      rcases hfind : (sorter lessByScore
          (workloads.filter (fun w => isUserAvailable w.user))).find?
          (fun w => w.user.id != au.id) with _ | wf
      · rw [List.find?_eq_none] at hfind
        exact absurd (by simpa using hwid) (hfind w (h1.1.mem_iff.mpr hw))
      · rw [hfind]
        rfl
    obtain ⟨wf, hfind⟩ := Option.isSome_iff_exists.mp hfindsome
    obtain ⟨l1, l2, hsp, hpre, hpw⟩ := find?_split hfind
    refine ⟨wf, h1.1.subset (hsp ▸ List.mem_append_right l1 (List.mem_cons_self wf l2)),
      by simp [hfind], by simpa using hpw, ?_⟩
    intro v hv hscore
    have hvmem : v ∈ l1 ++ wf :: l2 := hsp ▸ (h1.1.mem_iff.mpr hv)
    rcases List.mem_append.mp hvmem with hvl1 | hvr
    · have := hpre v hvl1
      simpa using this
    · rcases List.mem_cons.mp hvr with rfl | hvl2
      · exact absurd hscore (lt_irrefl _)
      · have hless : lessByScore v wf = false := sorted_split_suffix hsp h1.2 hvl2
        exact absurd hscore (of_decide_eq_false hless)
  · -- reviewer characterisation
    intro u hu
    simp only [Option.map_eq_some'] at hu
    obtain ⟨wr, hfind, hwru⟩ := hu
    obtain ⟨l1, l2, hsp, hpre, hpw⟩ := find?_split hfind
    have hwrmem : wr ∈ workloads.filter (fun w => isUserAvailable w.user) :=
      h1.1.subset (h2.1.subset (hsp ▸ List.mem_append_right l1 (List.mem_cons_self wr l2)))
    rw [Bool.and_eq_true] at hpw
    refine ⟨wr, hwrmem, hwru.symm, ?_, ?_, ?_⟩
    · intro au hau
      rw [hau] at hpw
      subst hwru
      simpa using hpw.1
    · intro a ha
      rw [ha] at hpw
      subst hwru
      simpa using hpw.2
    · intro v hv hcount
      have hvmem : v ∈ l1 ++ wr :: l2 :=
        hsp ▸ (h2.1.mem_iff.mpr (h1.1.mem_iff.mpr hv))
      rcases List.mem_append.mp hvmem with hvl1 | hvr
      · have hvfalse := hpre v hvl1
        rw [Bool.and_eq_false_iff] at hvfalse
        rcases hvfalse with hfa | hfa
        · rcases hauthor : mr.author with _ | au
          · rw [hauthor] at hfa
            simp at hfa
          · rw [hauthor] at hfa
            exact Or.inl ⟨au, rfl, by simpa using hfa⟩
        · rcases hassign : ((sorter lessByScore
              (workloads.filter (fun w => isUserAvailable w.user))).find?
              (fun w => match mr.author with
                | none => true
                | some au => w.user.id != au.id)).map (fun w => w.user) with _ | a
          · rw [hassign] at hfa
            simp at hfa
          · rw [hassign] at hfa
            exact Or.inr ⟨a, hassign, by simpa using hfa⟩
      · rcases List.mem_cons.mp hvr with rfl | hvl2
        · exact absurd hcount (lt_irrefl _)
        · have hless : lessByMRCount v wr = false := sorted_split_suffix hsp h2.2 hvl2
          exact absurd hcount (of_decide_eq_false hless)
  · -- a reviewer exists when a qualified candidate exists
    rintro ⟨w, hw, hnauth, hnass⟩
    have hwmem : w ∈ sorter lessByMRCount (sorter lessByScore
        (workloads.filter (fun w => isUserAvailable w.user))) :=
      h2.1.mem_iff.mpr (h1.1.mem_iff.mpr hw)
    intro hnone
    rw [Option.map_eq_none'] at hnone
    rw [List.find?_eq_none] at hnone
    refine hnone w hwmem ?_
    rw [Bool.and_eq_true]
    constructor
    · rcases hauthor : mr.author with _ | au
      · rfl
      · simpa using hnauth au hauthor
    · rcases hassign : ((sorter lessByScore
          (workloads.filter (fun w => isUserAvailable w.user))).find?
          (fun w => match mr.author with
            | none => true
            | some au => w.user.id != au.id)).map (fun w => w.user) with _ | a
      · rw [hassign]
      · rw [hassign]
        simpa using hnass a hassign

/-- Witness for C1, at the spec's own example: author 1, member 2 with score
10/2 = 5, member 3 with score 5/3; the assignee is member 2 and the reviewer
member 3, with no error. -/
theorem suggestAssigneeAndReviewer_order_characterisation_witness :
    ((suggestAssigneeAndReviewer insertionSortEarly
      { id := 1, iid := 1, title := "", description := "", webURL := "",
        author := some { id := 1, username := "a", email := "", status := ⟨"", ""⟩ },
        assignee := none, reviewers := [], createdAt := 0, updatedAt := 0,
        projectID := 1, draft := false, sourceBranch := "b" }
      [{ user := { id := 2, username := "u2", email := "", status := ⟨"", "available"⟩ },
         mrCount := 1, commits := 10, activeMRs := [] },
       { user := { id := 3, username := "u3", email := "", status := ⟨"", "available"⟩ },
         mrCount := 2, commits := 5, activeMRs := [] }]).err = none) ∧
    ((suggestAssigneeAndReviewer insertionSortEarly
      { id := 1, iid := 1, title := "", description := "", webURL := "",
        author := some { id := 1, username := "a", email := "", status := ⟨"", ""⟩ },
        assignee := none, reviewers := [], createdAt := 0, updatedAt := 0,
        projectID := 1, draft := false, sourceBranch := "b" }
      [{ user := { id := 2, username := "u2", email := "", status := ⟨"", "available"⟩ },
         mrCount := 1, commits := 10, activeMRs := [] },
       { user := { id := 3, username := "u3", email := "", status := ⟨"", "available"⟩ },
         mrCount := 2, commits := 5, activeMRs := [] }]).assignee =
      some { id := 2, username := "u2", email := "", status := ⟨"", "available"⟩ }) ∧
    ((suggestAssigneeAndReviewer insertionSortEarly
      { id := 1, iid := 1, title := "", description := "", webURL := "",
        author := some { id := 1, username := "a", email := "", status := ⟨"", ""⟩ },
        assignee := none, reviewers := [], createdAt := 0, updatedAt := 0,
        projectID := 1, draft := false, sourceBranch := "b" }
      [{ user := { id := 2, username := "u2", email := "", status := ⟨"", "available"⟩ },
         mrCount := 1, commits := 10, activeMRs := [] },
       { user := { id := 3, username := "u3", email := "", status := ⟨"", "available"⟩ },
         mrCount := 2, commits := 5, activeMRs := [] }]).reviewer =
      some { id := 3, username := "u3", email := "", status := ⟨"", "available"⟩ }) :=
  ⟨(suggestAssigneeAndReviewer_order_characterisation insertionSortEarly
      { id := 1, iid := 1, title := "", description := "", webURL := "",
        author := some { id := 1, username := "a", email := "", status := ⟨"", ""⟩ },
        assignee := none, reviewers := [], createdAt := 0, updatedAt := 0,
        projectID := 1, draft := false, sourceBranch := "b" }
      [{ user := { id := 2, username := "u2", email := "", status := ⟨"", "available"⟩ },
         mrCount := 1, commits := 10, activeMRs := [] },
       { user := { id := 3, username := "u3", email := "", status := ⟨"", "available"⟩ },
         mrCount := 2, commits := 5, activeMRs := [] }]
      (by decide) (by decide) (by decide)).1,
   by decide, by decide⟩

/-- Two mutually permuted lists that are both pairwise `R`-sorted agree when
`R` is antisymmetric on the elements involved. -/
theorem eq_of_perm_of_pairwise_antisymm_on {α : Type} {R : α → α → Prop} :
    ∀ {l1 l2 : List α}, List.Perm l1 l2 → l1.Pairwise R → l2.Pairwise R →
      (∀ x ∈ l1, ∀ y ∈ l1, R x y → R y x → x = y) → l1 = l2 := by
  intro l1
  induction l1 with
  | nil =>
    intro l2 hp _ _ _
    exact (List.Perm.eq_nil hp.symm).symm
  | cons a t ih =>
    intro l2 hp hp1 hp2 hanti
    cases l2 with
    | nil => exact absurd (List.Perm.eq_nil hp) (List.cons_ne_nil a t)
    | cons b t2 =>
      have hab : a = b := by
        by_cases h : a = b
        · exact h
        · have hamem : a ∈ b :: t2 := hp.subset (List.mem_cons_self a t)
          have hbmem : b ∈ a :: t := hp.symm.subset (List.mem_cons_self b t2)
          have ha2 : a ∈ t2 := by
            rcases List.mem_cons.mp hamem with h1 | h1
            · exact absurd h1 h
            · exact h1
          have hb1 : b ∈ t := by
            rcases List.mem_cons.mp hbmem with h1 | h1
            · exact absurd h1.symm h
            · exact h1
          have hRba : R b a := (List.pairwise_cons.mp hp2).1 a ha2
          have hRab : R a b := (List.pairwise_cons.mp hp1).1 b hb1
          exact hanti a (List.mem_cons_self a t) b (List.mem_cons_of_mem a hb1) hRab hRba
      subst hab
      have ht : List.Perm t t2 := hp.cons_inv
      have htail := ih ht (List.pairwise_cons.mp hp1).2 (List.pairwise_cons.mp hp2).2
        (fun x hx y hy => hanti x (List.mem_cons_of_mem a hx) y (List.mem_cons_of_mem a hy))
      rw [htail]

/-- C2 (amended): the suggester's outcome does not depend on which
contract-satisfying sort stands in for `sort.Slice` whenever the available
members have pairwise distinct scores and pairwise distinct unresolved-MR
counts; in particular it is then deterministic.  (Stability itself is not
guaranteed by `sort.Slice`; see the counterexample.) -/
theorem suggestAssigneeAndReviewer_sorter_independent_on_distinct_keys
    (S1 S2 : GoSort UserWorkload) (mr : MergeRequest) (workloads : List UserWorkload)
    (hds : (workloads.filter (fun w => isUserAvailable w.user)).Pairwise
      (fun x y => calculateAssigneeScore x.commits x.mrCount ≠
        calculateAssigneeScore y.commits y.mrCount))
    (hdm : (workloads.filter (fun w => isUserAvailable w.user)).Pairwise
      (fun x y => x.mrCount ≠ y.mrCount))
    (hA1 : SortedAs lessByScore (workloads.filter (fun w => isUserAvailable w.user))
      (S1 lessByScore (workloads.filter (fun w => isUserAvailable w.user))))
    (hA2 : SortedAs lessByScore (workloads.filter (fun w => isUserAvailable w.user))
      (S2 lessByScore (workloads.filter (fun w => isUserAvailable w.user))))
    (hB1 : SortedAs lessByMRCount
      (S1 lessByScore (workloads.filter (fun w => isUserAvailable w.user)))
      (S1 lessByMRCount (S1 lessByScore (workloads.filter (fun w => isUserAvailable w.user)))))
    (hB2 : SortedAs lessByMRCount
      (S2 lessByScore (workloads.filter (fun w => isUserAvailable w.user)))
      (S2 lessByMRCount (S2 lessByScore (workloads.filter (fun w => isUserAvailable w.user))))) :
    suggestAssigneeAndReviewer S1 mr workloads =
      suggestAssigneeAndReviewer S2 mr workloads := by
  by_cases hav : workloads.filter (fun w => isUserAvailable w.user) = []
  · by_cases hw : workloads = []
    · subst hw
      rfl
    · obtain ⟨a, t, rfl⟩ := List.exists_cons_of_ne_nil hw
      simp [suggestAssigneeAndReviewer, hav]
  · -- with distinct keys, the two sorted orders coincide
    have hs : S1 lessByScore (workloads.filter (fun w => isUserAvailable w.user)) =
        S2 lessByScore (workloads.filter (fun w => isUserAvailable w.user)) := by
      refine eq_of_perm_of_pairwise_antisymm_on (hA1.1.trans hA2.1.symm) hA1.2 hA2.2 ?_
      intro x hx y hy hxy hyx
      by_contra hne
      have hxa := hA1.1.subset hx
      have hya := hA1.1.subset hy
      have hdiff := hds.forall (fun a b h => h.symm) hxa hya hne
      have h1 := of_decide_eq_false hxy
      have h2 := of_decide_eq_false hyx
      exact hdiff (le_antisymm (not_lt.mp h2) (not_lt.mp h1))
    rw [suggestAssigneeAndReviewer_eq_of_avail_ne_nil S1 mr workloads hav,
      suggestAssigneeAndReviewer_eq_of_avail_ne_nil S2 mr workloads hav, hs]
    rw [hs] at hB1
    have hm : S1 lessByMRCount (S2 lessByScore
        (workloads.filter (fun w => isUserAvailable w.user))) =
        S2 lessByMRCount (S2 lessByScore
        (workloads.filter (fun w => isUserAvailable w.user))) := by
      refine eq_of_perm_of_pairwise_antisymm_on (hB1.1.trans hB2.1.symm) hB1.2 hB2.2 ?_
      intro x hx y hy hxy hyx
      by_contra hne
      have hxa := hA2.1.subset (hB1.1.subset hx)
      have hya := hA2.1.subset (hB1.1.subset hy)
      have hdiff := hdm.forall (fun a b h => h.symm) hxa hya hne
      have h1 := of_decide_eq_false hxy
      have h2 := of_decide_eq_false hyx
      exact hdiff (Nat.le_antisymm (Nat.not_lt.mp h1) (Nat.not_lt.mp h2))
    rw [hm]

/-- Counterexample for C2: `sort.Slice` promises only the sorting contract,
and under that contract stability fails.  With two available members of equal
score (4/2 = 2) and equal unresolved-MR count, both reference sorters meet
the contract on this input, yet one sort places the later input element
first, and the two contract-satisfying sorts give different assignees — so
the claimed stability (and the determinism derived from it) is not
guaranteed by the code's sort. -/
theorem suggestAssigneeAndReviewer_stability_counterexample :
    (SortedAs lessByScore
      [{ user := { id := 2, username := "u2", email := "", status := ⟨"", ""⟩ },
         mrCount := 1, commits := 4, activeMRs := [] },
       { user := { id := 3, username := "u3", email := "", status := ⟨"", ""⟩ },
         mrCount := 1, commits := 4, activeMRs := [] }]
      (insertionSortEarly lessByScore
        [{ user := { id := 2, username := "u2", email := "", status := ⟨"", ""⟩ },
           mrCount := 1, commits := 4, activeMRs := [] },
         { user := { id := 3, username := "u3", email := "", status := ⟨"", ""⟩ },
           mrCount := 1, commits := 4, activeMRs := [] }]) ∧
     SortedAs lessByScore
      [{ user := { id := 2, username := "u2", email := "", status := ⟨"", ""⟩ },
         mrCount := 1, commits := 4, activeMRs := [] },
       { user := { id := 3, username := "u3", email := "", status := ⟨"", ""⟩ },
         mrCount := 1, commits := 4, activeMRs := [] }]
      (insertionSortLate lessByScore
        [{ user := { id := 2, username := "u2", email := "", status := ⟨"", ""⟩ },
           mrCount := 1, commits := 4, activeMRs := [] },
         { user := { id := 3, username := "u3", email := "", status := ⟨"", ""⟩ },
           mrCount := 1, commits := 4, activeMRs := [] }])) ∧
    (lessByScore
      ({ user := { id := 2, username := "u2", email := "", status := ⟨"", ""⟩ },
         mrCount := 1, commits := 4, activeMRs := [] } : UserWorkload)
      ({ user := { id := 3, username := "u3", email := "", status := ⟨"", ""⟩ },
         mrCount := 1, commits := 4, activeMRs := [] } : UserWorkload) = false ∧
     lessByScore
      ({ user := { id := 3, username := "u3", email := "", status := ⟨"", ""⟩ },
         mrCount := 1, commits := 4, activeMRs := [] } : UserWorkload)
      ({ user := { id := 2, username := "u2", email := "", status := ⟨"", ""⟩ },
         mrCount := 1, commits := 4, activeMRs := [] } : UserWorkload) = false) ∧
    insertionSortLate lessByScore
      [{ user := { id := 2, username := "u2", email := "", status := ⟨"", ""⟩ },
         mrCount := 1, commits := 4, activeMRs := [] },
       { user := { id := 3, username := "u3", email := "", status := ⟨"", ""⟩ },
         mrCount := 1, commits := 4, activeMRs := [] }] =
      [{ user := { id := 3, username := "u3", email := "", status := ⟨"", ""⟩ },
         mrCount := 1, commits := 4, activeMRs := [] },
       { user := { id := 2, username := "u2", email := "", status := ⟨"", ""⟩ },
         mrCount := 1, commits := 4, activeMRs := [] }] ∧
    (suggestAssigneeAndReviewer insertionSortEarly
      { id := 1, iid := 1, title := "", description := "", webURL := "",
        author := some { id := 1, username := "a", email := "", status := ⟨"", ""⟩ },
        assignee := none, reviewers := [], createdAt := 0, updatedAt := 0,
        projectID := 1, draft := false, sourceBranch := "b" }
      [{ user := { id := 2, username := "u2", email := "", status := ⟨"", ""⟩ },
         mrCount := 1, commits := 4, activeMRs := [] },
       { user := { id := 3, username := "u3", email := "", status := ⟨"", ""⟩ },
         mrCount := 1, commits := 4, activeMRs := [] }]).assignee =
      some { id := 2, username := "u2", email := "", status := ⟨"", ""⟩ } ∧
    (suggestAssigneeAndReviewer insertionSortLate
      { id := 1, iid := 1, title := "", description := "", webURL := "",
        author := some { id := 1, username := "a", email := "", status := ⟨"", ""⟩ },
        assignee := none, reviewers := [], createdAt := 0, updatedAt := 0,
        projectID := 1, draft := false, sourceBranch := "b" }
      [{ user := { id := 2, username := "u2", email := "", status := ⟨"", ""⟩ },
         mrCount := 1, commits := 4, activeMRs := [] },
       { user := { id := 3, username := "u3", email := "", status := ⟨"", ""⟩ },
         mrCount := 1, commits := 4, activeMRs := [] }]).assignee =
      some { id := 3, username := "u3", email := "", status := ⟨"", ""⟩ } ∧
    ((some { id := 2, username := "u2", email := "", status := ⟨"", ""⟩ } : Option User) ≠
      (some { id := 3, username := "u3", email := "", status := ⟨"", ""⟩ } : Option User)) := by
  decide

/-- Witness for the amended C2: with pairwise distinct scores and distinct
MR counts, the stable and the anti-stable contract-satisfying sorters give
identical suggestions. -/
theorem suggestAssigneeAndReviewer_sorter_independent_on_distinct_keys_witness :
    suggestAssigneeAndReviewer insertionSortEarly
      { id := 1, iid := 1, title := "", description := "", webURL := "",
        author := some { id := 1, username := "a", email := "", status := ⟨"", ""⟩ },
        assignee := none, reviewers := [], createdAt := 0, updatedAt := 0,
        projectID := 1, draft := false, sourceBranch := "b" }
      [{ user := { id := 2, username := "u2", email := "", status := ⟨"", ""⟩ },
         mrCount := 1, commits := 10, activeMRs := [] },
       { user := { id := 3, username := "u3", email := "", status := ⟨"", ""⟩ },
         mrCount := 2, commits := 5, activeMRs := [] }] =
    suggestAssigneeAndReviewer insertionSortLate
      { id := 1, iid := 1, title := "", description := "", webURL := "",
        author := some { id := 1, username := "a", email := "", status := ⟨"", ""⟩ },
        assignee := none, reviewers := [], createdAt := 0, updatedAt := 0,
        projectID := 1, draft := false, sourceBranch := "b" }
      [{ user := { id := 2, username := "u2", email := "", status := ⟨"", ""⟩ },
         mrCount := 1, commits := 10, activeMRs := [] },
       { user := { id := 3, username := "u3", email := "", status := ⟨"", ""⟩ },
         mrCount := 2, commits := 5, activeMRs := [] }] :=
  suggestAssigneeAndReviewer_sorter_independent_on_distinct_keys
    insertionSortEarly insertionSortLate
    { id := 1, iid := 1, title := "", description := "", webURL := "",
      author := some { id := 1, username := "a", email := "", status := ⟨"", ""⟩ },
      assignee := none, reviewers := [], createdAt := 0, updatedAt := 0,
      projectID := 1, draft := false, sourceBranch := "b" }
    [{ user := { id := 2, username := "u2", email := "", status := ⟨"", ""⟩ },
       mrCount := 1, commits := 10, activeMRs := [] },
     { user := { id := 3, username := "u3", email := "", status := ⟨"", ""⟩ },
       mrCount := 2, commits := 5, activeMRs := [] }]
    (by decide) (by decide) (by decide) (by decide) (by decide) (by decide)

/-! ## Status prioritizer (app.go 370-398) -/

/-- The single comparator of `SortMergeRequestsByPriority` (app.go 379-395):
current branch first, then current project, then most recently updated
(`UpdatedAt.After` is strict `>` on the timestamp). -/
def lessPriority (i j : MergeRequestWithStatus) : Bool :=
  if i.isCurrentBranch && !j.isCurrentBranch then true
  else if !i.isCurrentBranch && j.isCurrentBranch then false
  else if i.isCurrentProject && !j.isCurrentProject then true
  else if !i.isCurrentProject && j.isCurrentProject then false
  else decide (j.mr.updatedAt < i.mr.updatedAt)

/-- Embedding of `SortMergeRequestsByPriority` (app.go 370-398): copy the
slice and sort it with the single `lessPriority` comparator.  (The Go
function also receives the current project ID and branch but ignores both.) -/
def sortMergeRequestsByPriority (sorter : GoSort MergeRequestWithStatus)
    (mrs : List MergeRequestWithStatus) : List MergeRequestWithStatus :=
  sorter lessPriority mrs

/-- What a failed `lessPriority` comparison says about the pair. -/
theorem lessPriority_false (x y : MergeRequestWithStatus)
    (h : lessPriority y x = false) :
    (y.isCurrentBranch = true → x.isCurrentBranch = true) ∧
    (x.isCurrentBranch = y.isCurrentBranch →
      y.isCurrentProject = true → x.isCurrentProject = true) ∧
    (x.isCurrentBranch = y.isCurrentBranch → x.isCurrentProject = y.isCurrentProject →
      y.mr.updatedAt ≤ x.mr.updatedAt) := by
  unfold lessPriority at h
  rcases hyb : y.isCurrentBranch <;> rcases hxb : x.isCurrentBranch <;>
    rcases hyp : y.isCurrentProject <;> rcases hxp : x.isCurrentProject <;>
    rw [hyb, hxb, hyp, hxp] at h <;> simp at h ⊢ <;> omega

/-- C9: for every sort satisfying the `sort.Slice` contract, the output of
`SortMergeRequestsByPriority` is a permutation of the input in which every
current-branch entry precedes every non-current-branch entry, within equal
branch flags every current-project entry precedes every non-current-project
entry, within equal flags more recently updated entries come first; and
whenever exactly one input entry has `isCurrentBranch = true`, it is the
head of the output regardless of timestamps. -/
theorem sortMergeRequestsByPriority_characterisation
    (sorter : GoSort MergeRequestWithStatus) (mrs : List MergeRequestWithStatus)
    (hc : SortedAs lessPriority mrs (sorter lessPriority mrs)) :
    List.Perm (sortMergeRequestsByPriority sorter mrs) mrs ∧
    (sortMergeRequestsByPriority sorter mrs).Pairwise (fun x y =>
      (y.isCurrentBranch = true → x.isCurrentBranch = true) ∧
      (x.isCurrentBranch = y.isCurrentBranch →
        y.isCurrentProject = true → x.isCurrentProject = true) ∧
      (x.isCurrentBranch = y.isCurrentBranch → x.isCurrentProject = y.isCurrentProject →
        y.mr.updatedAt ≤ x.mr.updatedAt)) ∧
    (∀ x ∈ mrs, x.isCurrentBranch = true →
      (∀ y ∈ mrs, y.isCurrentBranch = true → y = x) →
      (sortMergeRequestsByPriority sorter mrs).head? = some x) := by
  refine ⟨hc.1, hc.2.imp (fun h => lessPriority_false _ _ h), ?_⟩
  intro x hx hxb huniq
  have hxout : x ∈ sorter lessPriority mrs := hc.1.mem_iff.mpr hx
  obtain ⟨w, t, hwt⟩ := List.exists_cons_of_ne_nil (List.ne_nil_of_mem hxout)
  unfold sortMergeRequestsByPriority
  rw [hwt]
  by_cases hwx : w = x
  · rw [hwx]
    rfl
  · have hxt : x ∈ t := by
      rcases List.mem_cons.mp (hwt ▸ hxout) with h | h
      · exact absurd h.symm hwx
      · exact h
    have hfalse : lessPriority x w = false :=
      (List.pairwise_cons.mp (hwt ▸ hc.2)).1 x hxt
    have hwb : w.isCurrentBranch = true := (lessPriority_false w x hfalse).1 hxb
    have hwmem : w ∈ mrs := hc.1.subset (hwt ▸ List.mem_cons_self w t)
    exact absurd (huniq w hwmem hwb) hwx

/-- Witness for C9: three enriched MRs of which exactly one is on the
current branch and has the oldest timestamp; it still comes out first. -/
theorem sortMergeRequestsByPriority_characterisation_witness :
    (sortMergeRequestsByPriority insertionSortEarly
      [{ mr := { id := 1, iid := 1, title := "", description := "", webURL := "",
                 author := none, assignee := none, reviewers := [], createdAt := 0,
                 updatedAt := -3600, projectID := 2, draft := false, sourceBranch := "x" },
         approvals := [], approvalCount := 0, isStalled := false,
         isCurrentBranch := false, isCurrentProject := false },
       { mr := { id := 2, iid := 2, title := "", description := "", webURL := "",
                 author := none, assignee := none, reviewers := [], createdAt := 0,
                 updatedAt := -7200, projectID := 1, draft := false, sourceBranch := "main" },
         approvals := [], approvalCount := 0, isStalled := false,
         isCurrentBranch := true, isCurrentProject := true },
       { mr := { id := 3, iid := 3, title := "", description := "", webURL := "",
                 author := none, assignee := none, reviewers := [], createdAt := 0,
                 updatedAt := 0, projectID := 1, draft := false, sourceBranch := "y" },
         approvals := [], approvalCount := 0, isStalled := false,
         isCurrentBranch := false, isCurrentProject := true }]).head? =
      some { mr := { id := 2, iid := 2, title := "", description := "", webURL := "",
                     author := none, assignee := none, reviewers := [], createdAt := 0,
                     updatedAt := -7200, projectID := 1, draft := false,
                     sourceBranch := "main" },
             approvals := [], approvalCount := 0, isStalled := false,
             isCurrentBranch := true, isCurrentProject := true } :=
  (sortMergeRequestsByPriority_characterisation insertionSortEarly
    [{ mr := { id := 1, iid := 1, title := "", description := "", webURL := "",
               author := none, assignee := none, reviewers := [], createdAt := 0,
               updatedAt := -3600, projectID := 2, draft := false, sourceBranch := "x" },
       approvals := [], approvalCount := 0, isStalled := false,
       isCurrentBranch := false, isCurrentProject := false },
     { mr := { id := 2, iid := 2, title := "", description := "", webURL := "",
               author := none, assignee := none, reviewers := [], createdAt := 0,
               updatedAt := -7200, projectID := 1, draft := false, sourceBranch := "main" },
       approvals := [], approvalCount := 0, isStalled := false,
       isCurrentBranch := true, isCurrentProject := true },
     { mr := { id := 3, iid := 3, title := "", description := "", webURL := "",
               author := none, assignee := none, reviewers := [], createdAt := 0,
               updatedAt := 0, projectID := 1, draft := false, sourceBranch := "y" },
       approvals := [], approvalCount := 0, isStalled := false,
       isCurrentBranch := false, isCurrentProject := true }]
    (by decide)).2.2
    { mr := { id := 2, iid := 2, title := "", description := "", webURL := "",
               author := none, assignee := none, reviewers := [], createdAt := 0,
               updatedAt := -7200, projectID := 1, draft := false, sourceBranch := "main" },
       approvals := [], approvalCount := 0, isStalled := false,
       isCurrentBranch := true, isCurrentProject := true }
    (by decide) rfl (by decide)

/-! ## Working-day subtraction (app.go 18, 716-728) -/

/-- The `workingDaysThreshold` constant (app.go 18). -/
def workingDaysThreshold : Nat := 3

/-- Whether a day-of-week value is Saturday (6) or Sunday (0). -/
def weekdayIsWeekend (w : Int) : Bool :=
  w == 6 || w == 0

/-- Day-of-week of a timestamp in seconds since the Unix epoch (UTC civil
time): `time.Sunday = 0` … `time.Saturday = 6`; day 0, 1970-01-01, was a
Thursday (4). -/
def weekday (t : Int) : Int :=
  (t / 86400 + 4) % 7

/-- The loop guard of `subtractWorkingDays`:
`result.Weekday() == time.Saturday || result.Weekday() == time.Sunday`
(the Go code counts the day when this is false). -/
def isWeekendDay (t : Int) : Bool :=
  weekdayIsWeekend (weekday t)

/-- The loop of `subtractWorkingDays` (app.go 720-725): while fewer than
`days` working days have been counted, step back one calendar day
(`AddDate(0, 0, -1)`, i.e. minus 86400 seconds in UTC) and count the day
unless it is a Saturday or Sunday.  At most three calendar steps are needed
per counted working day (a step lands on at most two consecutive weekend
days), so the fuel `3 * days + 3` supplied below never runs out. -/
def subtractWorkingDaysLoop (result : Int) (subtractedDays days : Nat) : Nat → Int
  | 0 => result
  | fuel + 1 =>
    if subtractedDays < days then
      let r := result - 86400
      if isWeekendDay r then subtractWorkingDaysLoop r subtractedDays days fuel
      else subtractWorkingDaysLoop r (subtractedDays + 1) days fuel
    else result

/-- Embedding of `subtractWorkingDays` (app.go 716-728). -/
def subtractWorkingDays (date : Int) (days : Nat) : Int :=
  subtractWorkingDaysLoop date 0 days (3 * days + 3)

/-- The trajectory of the loop expressed on day-of-week values only: the
number of calendar days stepped back. -/
def stepOffset (w : Int) : Nat → Nat → Nat → Nat
  | _, _, 0 => 0
  | s, d, fuel + 1 =>
    if s < d then
      if weekdayIsWeekend ((w - 1) % 7) then
        1 + stepOffset ((w - 1) % 7) s d fuel
      else
        1 + stepOffset ((w - 1) % 7) (s + 1) d fuel
    else 0

/-- Stepping back one calendar day decrements the day of week (mod 7). -/
theorem weekday_sub_one (t : Int) : weekday (t - 86400) = (weekday t - 1) % 7 := by
  unfold weekday
  omega

/-- Stepping back `k` calendar days subtracts `k` from the day of week
(mod 7). -/
theorem weekday_sub_mul (t : Int) (k : Nat) :
    weekday (t - 86400 * k) = (weekday t - k) % 7 := by
  unfold weekday
  omega

/-- The working-day loop only depends on the starting day of week: it steps
back `stepOffset` calendar days. -/
theorem subtractWorkingDaysLoop_eq_offset (f : Nat) :
    ∀ (r : Int) (s d : Nat),
      subtractWorkingDaysLoop r s d f = r - 86400 * stepOffset (weekday r) s d f := by
  induction f with
  | zero =>
    intro r s d
    simp [subtractWorkingDaysLoop, stepOffset]
  | succ f ih =>
    intro r s d
    by_cases hs : s < d
    · have hw : isWeekendDay (r - 86400) = weekdayIsWeekend ((weekday r - 1) % 7) := by
        rw [show isWeekendDay (r - 86400) = weekdayIsWeekend (weekday (r - 86400)) from rfl,
          weekday_sub_one]
      by_cases hwe : weekdayIsWeekend ((weekday r - 1) % 7) = true
      · rw [show subtractWorkingDaysLoop r s d (f + 1) =
            subtractWorkingDaysLoop (r - 86400) s d f by
            simp [subtractWorkingDaysLoop, hs, hw, hwe]]
        rw [ih (r - 86400) s d, weekday_sub_one]
        rw [show stepOffset (weekday r) s d (f + 1) =
            1 + stepOffset ((weekday r - 1) % 7) s d f by
            simp [stepOffset, hs, hwe]]
        push_cast
        ring
      · have hwe2 : isWeekendDay (r - 86400) = false := by
          rw [hw]
          exact Bool.eq_false_iff.mpr hwe
        rw [show subtractWorkingDaysLoop r s d (f + 1) =
            subtractWorkingDaysLoop (r - 86400) (s + 1) d f by
            simp [subtractWorkingDaysLoop, hs, hwe2]]
        rw [ih (r - 86400) (s + 1) d, weekday_sub_one]
        rw [show stepOffset (weekday r) s d (f + 1) =
            1 + stepOffset ((weekday r - 1) % 7) (s + 1) d f by
            simp [stepOffset, hs, hwe]]
        push_cast
        ring
    · simp [subtractWorkingDaysLoop, hs, stepOffset]

/-- Subtracting three working days steps back between three and five
calendar days, whatever the weekday of the starting point. -/
theorem subtractWorkingDays_three_bounds (t : Int) :
    t - 5 * 86400 ≤ subtractWorkingDays t 3 ∧ subtractWorkingDays t 3 ≤ t - 3 * 86400 := by
  have e : subtractWorkingDays t 3 = t - 86400 * stepOffset (weekday t) 0 3 12 :=
    subtractWorkingDaysLoop_eq_offset 12 t 0 3
  have hw : weekday t = 0 ∨ weekday t = 1 ∨ weekday t = 2 ∨ weekday t = 3 ∨
      weekday t = 4 ∨ weekday t = 5 ∨ weekday t = 6 := by
    unfold weekday
    omega
  have hk : 3 ≤ stepOffset (weekday t) 0 3 12 ∧ stepOffset (weekday t) 0 3 12 ≤ 5 := by
    rcases hw with h | h | h | h | h | h | h <;> rw [h] <;> decide
  rw [e]
  omega

/-- C8: `subtractWorkingDays` walks back one calendar day at a time counting
only non-weekend days: subtracting one working day from a Monday yields the
prior Friday (three calendar days back), from a Saturday the prior Friday
(one day back), and from a Sunday the prior Friday (two days back); and the
result of subtracting one working day is never a weekend day. -/
theorem subtractWorkingDays_one_working_day (t : Int) :
    (weekday t = 1 →
      subtractWorkingDays t 1 = t - 86400 * 3 ∧ weekday (subtractWorkingDays t 1) = 5) ∧
    (weekday t = 6 →
      subtractWorkingDays t 1 = t - 86400 * 1 ∧ weekday (subtractWorkingDays t 1) = 5) ∧
    (weekday t = 0 →
      subtractWorkingDays t 1 = t - 86400 * 2 ∧ weekday (subtractWorkingDays t 1) = 5) ∧
    isWeekendDay (subtractWorkingDays t 1) = false := by
  have e : subtractWorkingDays t 1 = t - 86400 * stepOffset (weekday t) 0 1 6 :=
    subtractWorkingDaysLoop_eq_offset 6 t 0 1
  refine ⟨?_, ?_, ?_, ?_⟩
  · intro h
    rw [e, h, show stepOffset (1 : Int) 0 1 6 = 3 from by decide]
    refine ⟨by norm_num, ?_⟩
    rw [show ((3 : Nat) : Int) = ((3 : Nat) : Int) from rfl, weekday_sub_mul t 3, h]
    decide
  · intro h
    rw [e, h, show stepOffset (6 : Int) 0 1 6 = 1 from by decide]
    refine ⟨by norm_num, ?_⟩
    rw [weekday_sub_mul t 1, h]
    decide
  · intro h
    rw [e, h, show stepOffset (0 : Int) 0 1 6 = 2 from by decide]
    refine ⟨by norm_num, ?_⟩
    rw [weekday_sub_mul t 2, h]
    decide
  · have hw : weekday t = 0 ∨ weekday t = 1 ∨ weekday t = 2 ∨ weekday t = 3 ∨
        weekday t = 4 ∨ weekday t = 5 ∨ weekday t = 6 := by
      unfold weekday
      omega
    rw [show isWeekendDay (subtractWorkingDays t 1) =
      weekdayIsWeekend (weekday (subtractWorkingDays t 1)) from rfl]
    rcases hw with h | h | h | h | h | h | h <;>
      rw [e, h] <;>
      [rw [show stepOffset (0 : Int) 0 1 6 = 2 from by decide, weekday_sub_mul t 2, h];
       rw [show stepOffset (1 : Int) 0 1 6 = 3 from by decide, weekday_sub_mul t 3, h];
       rw [show stepOffset (2 : Int) 0 1 6 = 1 from by decide, weekday_sub_mul t 1, h];
       rw [show stepOffset (3 : Int) 0 1 6 = 1 from by decide, weekday_sub_mul t 1, h];
       rw [show stepOffset (4 : Int) 0 1 6 = 1 from by decide, weekday_sub_mul t 1, h];
       rw [show stepOffset (5 : Int) 0 1 6 = 1 from by decide, weekday_sub_mul t 1, h];
       rw [show stepOffset (6 : Int) 0 1 6 = 1 from by decide, weekday_sub_mul t 1, h]] <;>
      decide

/-- Witness for C8: 1970-01-05 was a Monday, 1970-01-03 a Saturday and
1970-01-04 a Sunday; subtracting one working day from each lands on Friday
1970-01-02. -/
theorem subtractWorkingDays_one_working_day_witness :
    (weekday 345600 = 1 ∧ subtractWorkingDays 345600 1 = 86400 ∧
      weekday (subtractWorkingDays 345600 1) = 5) ∧
    (weekday 172800 = 6 ∧ subtractWorkingDays 172800 1 = 86400 ∧
      weekday (subtractWorkingDays 172800 1) = 5) ∧
    (weekday 259200 = 0 ∧ subtractWorkingDays 259200 1 = 86400 ∧
      weekday (subtractWorkingDays 259200 1) = 5) := by
  refine ⟨⟨by decide, ?_, ((subtractWorkingDays_one_working_day 345600).1 (by decide)).2⟩,
    ⟨by decide, ?_, ((subtractWorkingDays_one_working_day 172800).2.1 (by decide)).2⟩,
    ⟨by decide, ?_, ((subtractWorkingDays_one_working_day 259200).2.2.1 (by decide)).2⟩⟩
  · have h := ((subtractWorkingDays_one_working_day 345600).1 (by decide)).1
    omega
  · have h := ((subtractWorkingDays_one_working_day 172800).2.1 (by decide)).1
    omega
  · have h := ((subtractWorkingDays_one_working_day 259200).2.2.1 (by decide)).1
    omega

/-! ## Status enricher (app.go 400-442) -/

/-- Per-merge-request body of the `GetMergeRequestsWithStatus` loop
(app.go 419-438): fetch the approvals — a failed fetch degrades to an empty
approval list — and attach the derived status flags
(`UpdatedAt.Before` is strict `<` on timestamps). -/
def enrichMergeRequest (approvalsOracle : Int → Int → Except String (List User))
    (currentProjectID : Int) (currentBranch : String) (threeWorkingDaysAgo : Int)
    (mr : MergeRequest) : MergeRequestWithStatus :=
  let approvals := match approvalsOracle mr.projectID mr.iid with
    | .ok aps => aps
    | .error _ => []
  { mr := mr
    approvals := approvals
    approvalCount := approvals.length
    isStalled := decide (mr.updatedAt < threeWorkingDaysAgo)
    isCurrentBranch := currentBranch != "" && mr.sourceBranch == currentBranch
    isCurrentProject := currentProjectID != 0 && mr.projectID == currentProjectID }

/-- The current project ID extracted from the `GetCurrentProjectInfo` result
(app.go 408-413): 0 when the call failed. -/
def gitProjectID (gitInfo : Option (Project × String)) : Int :=
  match gitInfo with
  | some pb => pb.1.id
  | none => 0

/-- The current branch extracted from the `GetCurrentProjectInfo` result:
"" when the call failed. -/
def gitBranch (gitInfo : Option (Project × String)) : String :=
  match gitInfo with
  | some pb => pb.2
  | none => ""

/-- Embedding of `GetMergeRequestsWithStatus` (app.go 400-442).  The
repository and the git context are oracles: `listResult` is the
`ListMergeRequests` response, `approvalsOracle` the per-MR
`GetMergeRequestApprovals` call, and `gitInfo` the current project and
branch (`none` when `GetCurrentProjectInfo` fails, leaving project ID 0 and
branch ""). -/
def getMergeRequestsWithStatus (sorter : GoSort MergeRequestWithStatus)
    (listResult : Except String (List MergeRequest))
    (approvalsOracle : Int → Int → Except String (List User))
    (gitInfo : Option (Project × String)) (now : Int) :
    Except String (List MergeRequestWithStatus) :=
  match listResult with
  | .error e => .error ("failed to get merge requests: " ++ e)
  | .ok mrs =>
    let currentProjectID : Int := gitProjectID gitInfo
    let currentBranch : String := gitBranch gitInfo
    let threeWorkingDaysAgo := subtractWorkingDays now workingDaysThreshold
    let mrsWithStatus := mrs.map
      (enrichMergeRequest approvalsOracle currentProjectID currentBranch threeWorkingDaysAgo)
    .ok (sortMergeRequestsByPriority sorter mrsWithStatus)

/-- C7: whatever weekday "now" falls on, a merge request last updated seven
calendar days earlier is enriched with `isStalled = true`, and one updated
one hour earlier with `isStalled = false` (the threshold is
`subtractWorkingDays now 3`, which lies three to five calendar days back). -/
theorem enrichMergeRequest_stalled_window
    (approvalsOracle : Int → Int → Except String (List User))
    (currentProjectID : Int) (currentBranch : String) (now : Int) (mr : MergeRequest) :
    (mr.updatedAt = now - 7 * 86400 →
      (enrichMergeRequest approvalsOracle currentProjectID currentBranch
        (subtractWorkingDays now workingDaysThreshold) mr).isStalled = true) ∧
    (mr.updatedAt = now - 3600 →
      (enrichMergeRequest approvalsOracle currentProjectID currentBranch
        (subtractWorkingDays now workingDaysThreshold) mr).isStalled = false) := by
  have hb := subtractWorkingDays_three_bounds now
  constructor
  · intro h
    simp only [enrichMergeRequest, workingDaysThreshold, decide_eq_true_eq]
    rw [h]
    rcases hr : approvalsOracle mr.projectID mr.iid with e | aps <;> simp <;> omega
  · intro h
    simp only [enrichMergeRequest, workingDaysThreshold, decide_eq_false_iff_not]
    rw [h]
    rcases hr : approvalsOracle mr.projectID mr.iid with e | aps <;> simp <;> omega

/-- Witness for C7 at now = 0 (a Thursday): an MR updated 604800 seconds
earlier is stalled, one updated 3600 seconds earlier is not. -/
theorem enrichMergeRequest_stalled_window_witness :
    ((enrichMergeRequest (fun _ _ => Except.ok []) 0 ""
        (subtractWorkingDays 0 workingDaysThreshold)
        { id := 1, iid := 1, title := "", description := "", webURL := "",
          author := none, assignee := none, reviewers := [], createdAt := 0,
          updatedAt := -604800, projectID := 1, draft := false,
          sourceBranch := "b" }).isStalled = true) ∧
    ((enrichMergeRequest (fun _ _ => Except.ok []) 0 ""
        (subtractWorkingDays 0 workingDaysThreshold)
        { id := 1, iid := 1, title := "", description := "", webURL := "",
          author := none, assignee := none, reviewers := [], createdAt := 0,
          updatedAt := -3600, projectID := 1, draft := false,
          sourceBranch := "b" }).isStalled = false) :=
  ⟨(enrichMergeRequest_stalled_window (fun _ _ => Except.ok []) 0 "" 0
      { id := 1, iid := 1, title := "", description := "", webURL := "",
        author := none, assignee := none, reviewers := [], createdAt := 0,
        updatedAt := -604800, projectID := 1, draft := false,
        sourceBranch := "b" }).1 (by norm_num),
   (enrichMergeRequest_stalled_window (fun _ _ => Except.ok []) 0 "" 0
      { id := 1, iid := 1, title := "", description := "", webURL := "",
        author := none, assignee := none, reviewers := [], createdAt := 0,
        updatedAt := -3600, projectID := 1, draft := false,
        sourceBranch := "b" }).2 (by norm_num)⟩

/-! ## Review-workload analysis (app.go 150-199, 671-695) -/

/-- Inner accumulation of `fetchMRApprovals` (app.go 676-688): one approval
fetch per merge request, keyed by IID; any single failure fails the batch
(the errgroup propagates the first error).  The concurrent fan-out is
modelled sequentially: which of several simultaneous errors is reported may
differ, but success versus failure does not. -/
def fetchMRApprovalsLoop (approvalsOracle : Int → Int → Except String (List User)) :
    List MergeRequest → Except String (List (Int × List User))
  | [] => .ok []
  | mr :: rest =>
    match approvalsOracle mr.projectID mr.iid with
    | .error e => .error ("failed to get approvals for MR " ++ toString mr.iid ++ ": " ++ e)
    | .ok aps =>
      match fetchMRApprovalsLoop approvalsOracle rest with
      | .error e => .error e
      | .ok m => .ok ((mr.iid, aps) :: m)

/-- Embedding of `fetchMRApprovals` (app.go 671-695): strict batch fetch with
the `g.Wait()` error wrapper. -/
def fetchMRApprovals (approvalsOracle : Int → Int → Except String (List User))
    (mrs : List MergeRequest) : Except String (List (Int × List User)) :=
  match fetchMRApprovalsLoop approvalsOracle mrs with
  | .error e => .error ("failed to fetch MR approvals: " ++ e)
  | .ok m => .ok m

/-- Embedding of `getCurrentUser` (app.go 192-199). -/
def getCurrentUser (currentUser : Except String User) : Except String User :=
  match currentUser with
  | .error e => .error ("failed to get current user: " ++ e)
  | .ok u => .ok u

/-- Embedding of `AnalyzeMyReviewWorkload` (app.go 150-190): resolve the
current user, list open merge requests, keep those the user is involved in,
fetch all their approvals strictly, and count the ones not yet approved. -/
def analyzeMyReviewWorkload (currentUser : Except String User)
    (listResult : Except String (List MergeRequest))
    (approvalsOracle : Int → Int → Except String (List User)) :
    Except String UserWorkload :=
  match getCurrentUser currentUser with
  | .error e => .error ("failed to get current user: " ++ e)
  | .ok user =>
    match listResult with
    | .error e => .error ("failed to get merge requests: " ++ e)
    | .ok mrs =>
      let relevantMRs := mrs.filter (fun mr => isUserInvolvedInMR (some mr) user.id)
      match fetchMRApprovals approvalsOracle relevantMRs with
      | .error e => .error ("failed to get MR approvals: " ++ e)
      | .ok approvalsMap =>
        let activeMRs := relevantMRs.filter
          (fun mr => !hasUserApprovedMR ((List.lookup mr.iid approvalsMap).getD []) user.id)
        .ok { user := user, mrCount := activeMRs.length, commits := 0, activeMRs := activeMRs }

/-- Counterexample for C3: `AnalyzeMyReviewWorkload` attaches approvals to
the user's relevant merge requests through the strict `fetchMRApprovals`
batch, so a single merge request's failed approval fetch is surfaced as an
error to the caller instead of degrading to an empty approval list. -/
theorem analyzeMyReviewWorkload_strict_counterexample :
    analyzeMyReviewWorkload
      (Except.ok { id := 1, username := "me", email := "", status := ⟨"", ""⟩ })
      (Except.ok
        [{ id := 10, iid := 1, title := "", description := "", webURL := "",
           author := some { id := 2, username := "o", email := "", status := ⟨"", ""⟩ },
           assignee := some { id := 1, username := "me", email := "", status := ⟨"", ""⟩ },
           reviewers := [], createdAt := 0, updatedAt := 0, projectID := 5,
           draft := false, sourceBranch := "b" }])
      (fun _ _ => Except.error "boom") =
    Except.error
      "failed to get MR approvals: failed to fetch MR approvals: failed to get approvals for MR 1: boom" := by
  rfl

/-- C3 (amended): the status-enrichment operation `GetMergeRequestsWithStatus`
does degrade a failed approval fetch: it never fails once the merge-request
list is available, returns one entry per merge request, and the entry of a
merge request whose approval fetch failed carries an empty approval list
while successful fetches are attached unchanged.  (`AnalyzeMyReviewWorkload`
is excluded: as the counterexample shows, it surfaces such a failure.) -/
theorem getMergeRequestsWithStatus_approval_failure_degrades
    (sorter : GoSort MergeRequestWithStatus) (mrs : List MergeRequest)
    (approvalsOracle : Int → Int → Except String (List User))
    (gitInfo : Option (Project × String)) (now : Int)
    (hc : SortedAs lessPriority
      (mrs.map (enrichMergeRequest approvalsOracle
        (gitProjectID gitInfo) (gitBranch gitInfo)
        (subtractWorkingDays now workingDaysThreshold)))
      (sorter lessPriority (mrs.map (enrichMergeRequest approvalsOracle
        (gitProjectID gitInfo) (gitBranch gitInfo)
        (subtractWorkingDays now workingDaysThreshold))))) :
    getMergeRequestsWithStatus sorter (Except.ok mrs) approvalsOracle gitInfo now =
      Except.ok (sorter lessPriority (mrs.map (enrichMergeRequest approvalsOracle
        (gitProjectID gitInfo) (gitBranch gitInfo)
        (subtractWorkingDays now workingDaysThreshold)))) ∧
    (sorter lessPriority (mrs.map (enrichMergeRequest approvalsOracle
        (gitProjectID gitInfo) (gitBranch gitInfo)
        (subtractWorkingDays now workingDaysThreshold)))).length = mrs.length ∧
    ∀ mr ∈ mrs, ∃ e ∈ sorter lessPriority (mrs.map (enrichMergeRequest approvalsOracle
        (gitProjectID gitInfo) (gitBranch gitInfo)
        (subtractWorkingDays now workingDaysThreshold))),
      e.mr = mr ∧
      (∀ err, approvalsOracle mr.projectID mr.iid = Except.error err → e.approvals = []) ∧
      (∀ aps, approvalsOracle mr.projectID mr.iid = Except.ok aps → e.approvals = aps) := by
  refine ⟨rfl, ?_, ?_⟩
  · rw [hc.1.length_eq, List.length_map]
  · intro mr hmr
    refine ⟨enrichMergeRequest approvalsOracle
      (gitProjectID gitInfo) (gitBranch gitInfo)
      (subtractWorkingDays now workingDaysThreshold) mr,
      hc.1.mem_iff.mpr (List.mem_map_of_mem _ hmr), ?_, ?_, ?_⟩
    · rcases hr : approvalsOracle mr.projectID mr.iid with e | aps <;>
        simp [enrichMergeRequest, hr]
    · intro err herr
      simp [enrichMergeRequest, herr]
    · intro aps haps
      simp [enrichMergeRequest, haps]

/-- Witness for the amended C3: two merge requests, the first of which has a
failing approval fetch; the operation succeeds with two entries, an empty
approval list for the first and the fetched approver for the second. -/
theorem getMergeRequestsWithStatus_approval_failure_degrades_witness :
    getMergeRequestsWithStatus insertionSortEarly
      (Except.ok
        [{ id := 10, iid := 1, title := "", description := "", webURL := "",
           author := none, assignee := none, reviewers := [], createdAt := 0,
           updatedAt := 0, projectID := 5, draft := false, sourceBranch := "a" },
         { id := 11, iid := 2, title := "", description := "", webURL := "",
           author := none, assignee := none, reviewers := [], createdAt := 0,
           updatedAt := 0, projectID := 5, draft := false, sourceBranch := "b" }])
      (fun _ iid => if iid == 1 then Except.error "boom"
        else Except.ok [{ id := 7, username := "ap", email := "", status := ⟨"", ""⟩ }])
      none 0 =
      Except.ok (insertionSortEarly lessPriority
        ([{ id := 10, iid := 1, title := "", description := "", webURL := "",
            author := none, assignee := none, reviewers := [], createdAt := 0,
            updatedAt := 0, projectID := 5, draft := false, sourceBranch := "a" },
          { id := 11, iid := 2, title := "", description := "", webURL := "",
            author := none, assignee := none, reviewers := [], createdAt := 0,
            updatedAt := 0, projectID := 5, draft := false,
            sourceBranch := "b" }].map (enrichMergeRequest
          (fun _ iid => if iid == 1 then Except.error "boom"
            else Except.ok [{ id := 7, username := "ap", email := "", status := ⟨"", ""⟩ }])
          (gitProjectID (none : Option (Project × String)))
          (gitBranch (none : Option (Project × String)))
          (subtractWorkingDays 0 workingDaysThreshold)))) :=
  (getMergeRequestsWithStatus_approval_failure_degrades insertionSortEarly
    [{ id := 10, iid := 1, title := "", description := "", webURL := "",
       author := none, assignee := none, reviewers := [], createdAt := 0,
       updatedAt := 0, projectID := 5, draft := false, sourceBranch := "a" },
     { id := 11, iid := 2, title := "", description := "", webURL := "",
       author := none, assignee := none, reviewers := [], createdAt := 0,
       updatedAt := 0, projectID := 5, draft := false, sourceBranch := "b" }]
    (fun _ iid => if iid == 1 then Except.error "boom"
      else Except.ok [{ id := 7, username := "ap", email := "", status := ⟨"", ""⟩ }])
    none 0 (by decide)).1

/-! ## User cache (internal cache package) -/

/-- Embedding of `InMemoryCache`: the two `sync.Map`s as association lists
with the most recent store first, so that first-match lookup realises
last-write-wins.  The claims quantify over sequences of store operations,
so the concurrent map is modelled by its sequential store/lookup
behaviour. -/
structure InMemoryCache where
  byID : List (Int × User)
  byUsername : List (String × User)
deriving DecidableEq, Repr

/-- `NewInMemoryCache`. -/
def newInMemoryCache : InMemoryCache :=
  { byID := [], byUsername := [] }

/-- `InMemoryCache.StoreUser`: store the user under both its ID key and its
username key, overwriting any prior entry for either key. -/
def storeUser (c : InMemoryCache) (user : User) : InMemoryCache :=
  { byID := (user.id, user) :: c.byID
    byUsername := (user.username, user) :: c.byUsername }

/-- `InMemoryCache.GetUserByID`. -/
def getUserByID (c : InMemoryCache) (id : Int) : Option User :=
  List.lookup id c.byID

/-- `InMemoryCache.GetUserByUsername`. -/
def getUserByUsername (c : InMemoryCache) (username : String) : Option User :=
  List.lookup username c.byUsername

/-- The cache state reached by a sequence of `StoreUser` calls. -/
def cacheAfter (users : List User) : InMemoryCache :=
  users.foldl storeUser newInMemoryCache

/-- A successful association-list lookup is a list entry. -/
theorem lookup_mem {α β : Type} [BEq α] [LawfulBEq α] {l : List (α × β)} {a : α} {b : β}
    (h : List.lookup a l = some b) : (a, b) ∈ l := by
  induction l with
  | nil => simp [List.lookup] at h
  | cons p t ih =>
    obtain ⟨k, v⟩ := p
    rw [List.lookup] at h
    rcases hk : a == k with _ | _
    · rw [hk] at h
      exact List.mem_cons_of_mem _ (ih h)
    · rw [hk] at h
      have hv : some v = some b := h
      obtain rfl : v = b := Option.some.inj hv
      obtain rfl : a = k := eq_of_beq hk
      exact List.mem_cons_self _ _

/-- An association-list lookup succeeds when some entry carries the key. -/
theorem lookup_isSome_of_key {α β : Type} [BEq α] [LawfulBEq α] {l : List (α × β)} {a : α}
    (h : ∃ p ∈ l, p.1 = a) : ∃ b, List.lookup a l = some b := by
  induction l with
  | nil => simp at h
  | cons p t ih =>
    obtain ⟨k, v⟩ := p
    rw [List.lookup]
    rcases hk : a == k with _ | _
    · apply ih
      obtain ⟨q, hq, hqk⟩ := h
      rcases List.mem_cons.mp hq with rfl | hq2
      · exact absurd hqk.symm (by simpa using ne_of_beq_false hk)
      · exact ⟨q, hq2, hqk⟩
    · exact ⟨v, rfl⟩

/-- Structure of the cache after a store sequence, relative to an initial
state: username entries are initial entries or correctly keyed entries of
stored users, likewise ID entries; initial ID entries survive; and every
stored user has an ID entry. -/
theorem cacheAfter_entries (users : List User) :
    ∀ c : InMemoryCache,
      (∀ p ∈ (users.foldl storeUser c).byUsername,
        p ∈ c.byUsername ∨ (p.2 ∈ users ∧ p.1 = p.2.username)) ∧
      (∀ p ∈ (users.foldl storeUser c).byID,
        p ∈ c.byID ∨ (p.2 ∈ users ∧ p.1 = p.2.id)) ∧
      (∀ p ∈ c.byID, p ∈ (users.foldl storeUser c).byID) ∧
      (∀ u ∈ users, ∃ p ∈ (users.foldl storeUser c).byID, p.1 = u.id) := by
  induction users with
  | nil =>
    intro c
    exact ⟨fun p hp => Or.inl hp, fun p hp => Or.inl hp, fun p hp => hp, by simp⟩
  | cons u us ih =>
    intro c
    have h := ih (storeUser c u)
    refine ⟨?_, ?_, ?_, ?_⟩
    · intro p hp
      rcases h.1 p hp with hin | ⟨hm, he⟩
      · rcases List.mem_cons.mp hin with rfl | hin2
        · exact Or.inr ⟨List.mem_cons_self u us, rfl⟩
        · exact Or.inl hin2
      · exact Or.inr ⟨List.mem_cons_of_mem u hm, he⟩
    · intro p hp
      rcases h.2.1 p hp with hin | ⟨hm, he⟩
      · rcases List.mem_cons.mp hin with rfl | hin2
        · exact Or.inr ⟨List.mem_cons_self u us, rfl⟩
        · exact Or.inl hin2
      · exact Or.inr ⟨List.mem_cons_of_mem u hm, he⟩
    · intro p hp
      exact h.2.2.1 p (List.mem_cons_of_mem _ hp)
    · intro v hv
      rcases List.mem_cons.mp hv with rfl | hv2
      · exact ⟨(v.id, v), h.2.2.1 (v.id, v) (List.mem_cons_self _ _), rfl⟩
      · exact h.2.2.2 v hv2

/-- C4 (amended): immediately after `StoreUser(user)`, both `GetUserByID` on
its ID and `GetUserByUsername` on its handle return that user; and for every
sequence of stores in which users sharing an ID are identical, every
successful handle lookup returns the same record an ID lookup for that
record's ID returns.  (Without the same-ID restriction re-storing an ID
under a new handle breaks the invariant; see the counterexample.) -/
theorem inMemoryCache_dual_key_consistency (users : List User)
    (hid : ∀ u ∈ users, ∀ v ∈ users, u.id = v.id → u = v) :
    (∀ (c : InMemoryCache) (u : User),
      getUserByID (storeUser c u) u.id = some u ∧
      getUserByUsername (storeUser c u) u.username = some u) ∧
    (∀ (h : String) (u : User),
      getUserByUsername (cacheAfter users) h = some u →
      getUserByID (cacheAfter users) u.id = some u) := by
  constructor
  · intro c u
    constructor
    · simp [getUserByID, storeUser, List.lookup]
    · simp [getUserByUsername, storeUser, List.lookup]
  · intro h u hl
    have hmem : (h, u) ∈ (cacheAfter users).byUsername := lookup_mem hl
    have hE := cacheAfter_entries users newInMemoryCache
    rcases hE.1 (h, u) hmem with hin | ⟨hu, _⟩
    · simp [newInMemoryCache] at hin
    · obtain ⟨p, hp, hpk⟩ := hE.2.2.2 u hu
      obtain ⟨b, hb⟩ := lookup_isSome_of_key ⟨p, hp, hpk⟩
      have hbmem := lookup_mem hb
      rcases hE.2.1 (u.id, b) hbmem with hin2 | ⟨hbu, hbe⟩
      · simp [newInMemoryCache] at hin2
      · obtain rfl : b = u := hid b hbu u hu hbe.symm
        exact hb

/-- Counterexample for C4: after storing user (ID 1, handle "a") and then
user (ID 1, handle "b"), the handle lookup for "a" still returns the first
record, but the ID lookup for its ID 1 returns the second — the dual-key
invariant fails at this reachable state. -/
theorem inMemoryCache_dual_key_counterexample :
    getUserByUsername
      (cacheAfter [{ id := 1, username := "a", email := "", status := ⟨"", ""⟩ },
                   { id := 1, username := "b", email := "", status := ⟨"", ""⟩ }]) "a" =
      some { id := 1, username := "a", email := "", status := ⟨"", ""⟩ } ∧
    getUserByID
      (cacheAfter [{ id := 1, username := "a", email := "", status := ⟨"", ""⟩ },
                   { id := 1, username := "b", email := "", status := ⟨"", ""⟩ }]) 1 =
      some { id := 1, username := "b", email := "", status := ⟨"", ""⟩ } ∧
    ({ id := 1, username := "a", email := "", status := ⟨"", ""⟩ } : User) ≠
      { id := 1, username := "b", email := "", status := ⟨"", ""⟩ } := by
  decide

/-- Witness for the amended C4: two users with distinct IDs; the immediate
store property and the handle-to-ID consistency hold. -/
theorem inMemoryCache_dual_key_consistency_witness :
    (getUserByID (storeUser newInMemoryCache
        { id := 1, username := "a", email := "", status := ⟨"", ""⟩ })
        (1 : Int) =
      some { id := 1, username := "a", email := "", status := ⟨"", ""⟩ }) ∧
    getUserByID
      (cacheAfter [{ id := 1, username := "a", email := "", status := ⟨"", ""⟩ },
                   { id := 2, username := "b", email := "", status := ⟨"", ""⟩ }])
      (2 : Int) =
      some { id := 2, username := "b", email := "", status := ⟨"", ""⟩ } :=
  ⟨((inMemoryCache_dual_key_consistency
      [{ id := 1, username := "a", email := "", status := ⟨"", ""⟩ },
       { id := 2, username := "b", email := "", status := ⟨"", ""⟩ }]
      (by decide)).1 newInMemoryCache
      { id := 1, username := "a", email := "", status := ⟨"", ""⟩ }).1,
   (inMemoryCache_dual_key_consistency
      [{ id := 1, username := "a", email := "", status := ⟨"", ""⟩ },
       { id := 2, username := "b", email := "", status := ⟨"", ""⟩ }]
      (by decide)).2 "b"
      { id := 2, username := "b", email := "", status := ⟨"", ""⟩ } (by decide)⟩
